import Mathlib

/-!
Verification of the record-keeping services in this repository.

The repository holds two variants of the same single-process service:

* src/src/code_template.rs — a task service: a Database of tasks and users,
  request handlers for create/read/update/delete of tasks plus register and
  login of users, with write-through JSON persistence to database.json.
* src/src/main.rs — a fitness service: a Database of fitness-progress
  entries and users, with the analogous handlers for progress records.

Both keep the Database behind one mutex; every handler does one store
operation and, when mutating, one synchronous save_to_file call whose
result is discarded.

The embedding below is shallow: each Rust HashMap becomes an association
list with the HashMap operations the source uses (keyed insert-or-replace,
keyed lookup and removal, iteration over values); the serde_json layer
becomes an explicit JSON syntax tree together with the encoder and decoder
that the derived Serialize and Deserialize instances denote (struct fields
in declaration order, entity maps as JSON objects keyed by the decimal
rendering of the numeric key); the file system becomes a value describing
what a read of database.json observes; each async handler becomes a pure
function from the guarded database and the request data to the new
database, a flag recording that save_to_file was invoked, and the HTTP
response, with the outcome of the discarded save threaded in as an
explicit boolean input.
-/

namespace WebTemplate

/-- JSON values, restricted to the forms the two services serialize:
numbers (all numeric fields are unsigned integers), strings, booleans and
objects. -/
inductive Json where
  | num (n : Nat)
  | str (s : String)
  | bool (b : Bool)
  | obj (fields : List (String × Json))
deriving Repr

/-- Field lookup in a JSON object, first match wins (serde reads the fields
it knows by name). -/
def getField (name : String) : List (String × Json) → Option Json
  | [] => none
  | (k, v) :: rest => if k = name then some v else getField name rest

/-- Read a JSON value as an unsigned integer. -/
def Json.asNum : Json → Option Nat
  | .num n => some n
  | _ => none

/-- Read a JSON value as a string. -/
def Json.asStr : Json → Option String
  | .str s => some s
  | _ => none

/-- Read a JSON value as a boolean. -/
def Json.asBool : Json → Option Bool
  | .bool b => some b
  | _ => none

/-- The character for one decimal digit, as serde_json prints numeric map
keys. -/
def digitChar (d : Nat) : Char := Char.ofNat (48 + d)

/-- The numeric value of one decimal digit character. -/
def charVal (c : Char) : Nat := c.toNat - 48

/-- Whether a character is a decimal digit. -/
def isDigitChar (c : Char) : Bool := decide (48 ≤ c.toNat) && decide (c.toNat ≤ 57)

/-- The decimal string serde_json uses as the JSON object key for a u64 map
key: most significant digit first, and 0 printed as the single digit 0. -/
def natKey (n : Nat) : String :=
  if n = 0 then "0" else String.mk ((Nat.digits 10 n).reverse.map digitChar)

/-- Parse a JSON object key back to a u64 map key: a nonempty all-digit
string read as a decimal numeral, anything else rejected. -/
def parseKey (s : String) : Option Nat :=
  if s.data = [] then none
  else if s.data.all isDigitChar then
    some (Nat.ofDigits 10 ((s.data.map charVal).reverse))
  else none

/-- The HashMap operations the source uses, on an association-list
representation. Rust HashMap exposes no ordering, so the list order is a
representation choice; insert places the fresh entry first and drops any
previous entry for the key, mirroring insert-or-replace. -/
def KV.insert (m : List (Nat × α)) (k : Nat) (v : α) : List (Nat × α) :=
  (k, v) :: m.filter (fun p => p.1 != k)

/-- HashMap::get on the association-list representation. -/
def KV.get (m : List (Nat × α)) (k : Nat) : Option α :=
  (m.find? (fun p => p.1 == k)).map Prod.snd

/-- HashMap::remove on the association-list representation (the returned
old value is never used by the source, so it is not modelled). -/
def KV.remove (m : List (Nat × α)) (k : Nat) : List (Nat × α) :=
  m.filter (fun p => p.1 != k)

/-- HashMap::values on the association-list representation. -/
def KV.values (m : List (Nat × α)) : List α := m.map Prod.snd

/-- What a read of database.json observes, classifying the string
fs::read_to_string returns: the read fails (file absent), the content
trims to empty, the content is well-formed JSON with syntax tree j, or the
content is nonempty but not well-formed JSON. -/
inductive FileContent where
  | absent
  | whitespaceOnly
  | jsonText (j : Json)
  | malformed
deriving Repr

/-- The HTTP responses the handlers build. -/
inductive HttpResponse where
  | ok
  | okJson (j : Json)
  | okBody (s : String)
  | notFound
  | unauthorizedBody (s : String)
deriving Repr

end WebTemplate

namespace WebTemplate.CodeTemplate

/-- struct Task of code_template.rs. -/
structure Task where
  id : Nat
  name : String
  completed : Bool
deriving Repr, DecidableEq

/-- struct User of code_template.rs. -/
structure User where
  id : Nat
  username : String
  password : String
deriving Repr, DecidableEq

/-- struct Database of code_template.rs: tasks and users, each a HashMap
from u64 id to record. -/
structure Database where
  tasks : List (Nat × Task)
  users : List (Nat × User)
deriving Repr, DecidableEq

/-- Database::new. -/
def Database.new : Database := ⟨[], []⟩

/-- Database::insert — stores the task under its own id. -/
def Database.insert (db : Database) (task : Task) : Database :=
  { db with tasks := KV.insert db.tasks task.id task }

/-- Database::get. -/
def Database.get (db : Database) (id : Nat) : Option Task :=
  KV.get db.tasks id

/-- Database::get_all. -/
def Database.get_all (db : Database) : List Task :=
  KV.values db.tasks

/-- Database::delete. -/
def Database.delete (db : Database) (id : Nat) : Database :=
  { db with tasks := KV.remove db.tasks id }

/-- Database::update — stores the task under the given key, which need not
equal task.id. -/
def Database.update (db : Database) (id : Nat) (task : Task) : Database :=
  { db with tasks := KV.insert db.tasks id task }

/-- Database::insert_user. -/
def Database.insert_user (db : Database) (user : User) : Database :=
  { db with users := KV.insert db.users user.id user }

/-- Database::get_user_by_name — a linear scan over the values, first
match wins. -/
def Database.get_user_by_name (db : Database) (username : String) : Option User :=
  (KV.values db.users).find? (fun user => user.username == username)

/-- Database::get_user_by_id. -/
def Database.get_user_by_id (db : Database) (id : Nat) : Option User :=
  KV.get db.users id

/-- Database::delete_user_by_id. -/
def Database.delete_user_by_id (db : Database) (id : Nat) : Database :=
  { db with users := KV.remove db.users id }

/-- Database::update_user_by_id. -/
def Database.update_user_by_id (db : Database) (id : Nat) (user : User) : Database :=
  { db with users := KV.insert db.users id user }

/-- The derived Serialize for Task: fields in declaration order. -/
def encodeTask (t : Task) : Json :=
  .obj [("id", .num t.id), ("name", .str t.name), ("completed", .bool t.completed)]

/-- The derived Deserialize for Task: an object providing all three fields
with the right types, matched by name. -/
def decodeTask (j : Json) : Option Task :=
  match j with
  | .obj fields =>
    match getField "id" fields, getField "name" fields, getField "completed" fields with
    | some ji, some jn, some jc =>
      match ji.asNum, jn.asStr, jc.asBool with
      | some i, some n, some c => some ⟨i, n, c⟩
      | _, _, _ => none
    | _, _, _ => none
  | _ => none

/-- The derived Serialize for User. -/
def encodeUser (u : User) : Json :=
  .obj [("id", .num u.id), ("username", .str u.username), ("password", .str u.password)]

/-- The derived Deserialize for User. -/
def decodeUser (j : Json) : Option User :=
  match j with
  | .obj fields =>
    match getField "id" fields, getField "username" fields, getField "password" fields with
    | some ji, some jn, some jp =>
      match ji.asNum, jn.asStr, jp.asStr with
      | some i, some n, some p => some ⟨i, n, p⟩
      | _, _, _ => none
    | _, _, _ => none
  | _ => none

end WebTemplate.CodeTemplate

namespace WebTemplate

/-- Serialize of HashMap with u64 keys: a JSON object, one field per
entry, keyed by the decimal rendering of the key. -/
def encodeMap (enc : α → Json) (m : List (Nat × α)) : Json :=
  .obj (m.map (fun p => (natKey p.1, enc p.2)))

/-- Deserialize the field list of such an object: every key must parse as
a decimal numeral and every value must decode. -/
def decodeEntries (dec : Json → Option α) : List (String × Json) → Option (List (Nat × α))
  | [] => some []
  | (s, jv) :: rest =>
    match parseKey s, dec jv, decodeEntries dec rest with
    | some k, some v, some m => some ((k, v) :: m)
    | _, _, _ => none

/-- Deserialize of HashMap with u64 keys. -/
def decodeMap (dec : Json → Option α) (j : Json) : Option (List (Nat × α)) :=
  match j with
  | .obj fields => decodeEntries dec fields
  | _ => none

end WebTemplate

namespace WebTemplate.CodeTemplate

/-- The derived Serialize for Database: the two entity maps as object
fields in declaration order. -/
def encodeDatabase (db : Database) : Json :=
  .obj [("tasks", encodeMap encodeTask db.tasks), ("users", encodeMap encodeUser db.users)]

/-- The derived Deserialize for Database. -/
def decodeDatabase (j : Json) : Option Database :=
  match j with
  | .obj fields =>
    match getField "tasks" fields, getField "users" fields with
    | some jt, some ju =>
      match decodeMap decodeTask jt, decodeMap decodeUser ju with
      | some t, some u => some ⟨t, u⟩
      | _, _ => none
    | _, _ => none
  | _ => none

/-- Database::save_to_file — the JSON document serde_json::to_string
produces and the handler writes over database.json. Whether the write
itself succeeds is an I/O outcome threaded into the handlers separately. -/
def save_to_file (db : Database) : Json := encodeDatabase db

/-- Database::load_from_file of code_template.rs: a successful read of
nonempty content is parsed and decoded, with a parse or decode error
propagated by the question-mark operator; an empty or whitespace-only
content, or a failed read, yields a fresh Database. -/
def load_from_file (f : FileContent) : Except Unit Database :=
  match f with
  | .jsonText j =>
    match decodeDatabase j with
    | some db => .ok db
    | none => .error ()
  | .malformed => .error ()
  | .whitespaceOnly => .ok Database.new
  | .absent => .ok Database.new

/-- The startup sequence of code_template.rs main: load_from_file, falling
back to Database::new when it returns an error. -/
def startupDatabase (f : FileContent) : Database :=
  match load_from_file f with
  | .ok db => db
  | .error _ => Database.new

/-- The observable outcome of one handler invocation: the database left in
the guarded state, whether save_to_file was invoked, and the response
returned to the client. -/
structure HandlerOut where
  db : Database
  saveInvoked : Bool
  response : HttpResponse
deriving Repr

/-- Handler create_task: insert, then save with the result discarded, then
200 with no body. saveOk is the I/O outcome of the discarded save. -/
def create_task (state : Database) (task : Task) (saveOk : Bool) : HandlerOut :=
  ⟨state.insert task, true, .ok⟩

/-- Handler read_task: get by id, 200 with the record as JSON, or 404. -/
def read_task (state : Database) (id : Nat) : HandlerOut :=
  ⟨state, false,
    match state.get id with
    | some task => .okJson (encodeTask task)
    | none => .notFound⟩

/-- Handler read_all_tasks: 200 with all records as a JSON array; the
array itself is outside the Json fragment modelled here, so the response
carries the record list through encodeTask images. -/
def read_all_tasks (state : Database) : Database × List Json :=
  (state, (state.get_all).map encodeTask)

/-- Handler update_task: update under task.id, then save with the result
discarded, then 200 with no body. -/
def update_task (state : Database) (task : Task) (saveOk : Bool) : HandlerOut :=
  ⟨state.update task.id task, true, .ok⟩

/-- Handler delete_task: delete by id, then save with the result
discarded, then 200 with no body. -/
def delete_task (state : Database) (id : Nat) (saveOk : Bool) : HandlerOut :=
  ⟨state.delete id, true, .ok⟩

/-- Handler register_user: insert_user, then save with the result
discarded, then 200 with no body. -/
def register_user (state : Database) (user : User) (saveOk : Bool) : HandlerOut :=
  ⟨state.insert_user user, true, .ok⟩

/-- Handler login_user: lookup by username, then plaintext password
comparison; one success body, one failure body shared by the miss and the
mismatch case. -/
def login_user (state : Database) (user : User) : HandlerOut :=
  ⟨state, false,
    match state.get_user_by_name user.username with
    | some stored_user =>
      if stored_user.password = user.password then .okBody "Login successful"
      else .unauthorizedBody "Login failed"
    | none => .unauthorizedBody "Login failed"⟩

/-- Database states reachable from the fresh database through the mutating
request handlers of code_template.rs. -/
inductive Reachable : Database → Prop where
  | new : Reachable Database.new
  | create {db} (h : Reachable db) (t : Task) (so : Bool) :
      Reachable (create_task db t so).db
  | update {db} (h : Reachable db) (t : Task) (so : Bool) :
      Reachable (update_task db t so).db
  | delete {db} (h : Reachable db) (id : Nat) (so : Bool) :
      Reachable (delete_task db id so).db
  | register {db} (h : Reachable db) (u : User) (so : Bool) :
      Reachable (register_user db u so).db

/-- Sequential execution of a list of create_task requests, one handler
invocation per request, in list order; under the single mutex every
concurrent schedule of the requests executes as one such order. -/
def runCreates (db : Database) (ts : List Task) : Database :=
  ts.foldl (fun d t => (create_task d t true).db) db

/-- The key of every stored entry equals the id field of the stored
record, in both entity maps. -/
def KeyMatchesId (db : Database) : Prop :=
  (∀ p ∈ db.tasks, p.2.id = p.1) ∧ (∀ p ∈ db.users, p.2.id = p.1)

end WebTemplate.CodeTemplate

namespace WebTemplate.MainRs

/-- struct FitnessProgress of main.rs. -/
structure FitnessProgress where
  id : Nat
  user_id : Nat
  date : String
  timezone : String
  steps : Nat
  calories_burned : Nat
deriving Repr, DecidableEq

/-- struct User of main.rs. -/
structure User where
  id : Nat
  username : String
  password : String
deriving Repr, DecidableEq

/-- struct Database of main.rs: fitness_progress and users. -/
structure Database where
  fitness_progress : List (Nat × FitnessProgress)
  users : List (Nat × User)
deriving Repr, DecidableEq

/-- Database::new. -/
def Database.new : Database := ⟨[], []⟩

/-- Database::insert_progress — stores the record under its own id. -/
def Database.insert_progress (db : Database) (progress : FitnessProgress) : Database :=
  { db with fitness_progress := KV.insert db.fitness_progress progress.id progress }

/-- Database::get_progress. -/
def Database.get_progress (db : Database) (id : Nat) : Option FitnessProgress :=
  KV.get db.fitness_progress id

/-- Database::get_all_progress. -/
def Database.get_all_progress (db : Database) : List FitnessProgress :=
  KV.values db.fitness_progress

/-- Database::delete_progress. -/
def Database.delete_progress (db : Database) (id : Nat) : Database :=
  { db with fitness_progress := KV.remove db.fitness_progress id }

/-- Database::update_progress — stores the record under the given key. -/
def Database.update_progress (db : Database) (id : Nat) (progress : FitnessProgress) : Database :=
  { db with fitness_progress := KV.insert db.fitness_progress id progress }

/-- Database::insert_user. -/
def Database.insert_user (db : Database) (user : User) : Database :=
  { db with users := KV.insert db.users user.id user }

/-- Database::get_user_by_name. -/
def Database.get_user_by_name (db : Database) (username : String) : Option User :=
  (KV.values db.users).find? (fun user => user.username == username)

/-- Database::get_user_by_id. -/
def Database.get_user_by_id (db : Database) (id : Nat) : Option User :=
  KV.get db.users id

/-- Database::delete_user_by_id. -/
def Database.delete_user_by_id (db : Database) (id : Nat) : Database :=
  { db with users := KV.remove db.users id }

/-- Database::update_user_by_id. -/
def Database.update_user_by_id (db : Database) (id : Nat) (user : User) : Database :=
  { db with users := KV.insert db.users id user }

/-- The derived Serialize for FitnessProgress: fields in declaration
order. -/
def encodeProgress (p : FitnessProgress) : Json :=
  .obj [("id", .num p.id), ("user_id", .num p.user_id), ("date", .str p.date),
        ("timezone", .str p.timezone), ("steps", .num p.steps),
        ("calories_burned", .num p.calories_burned)]

/-- The derived Deserialize for FitnessProgress. -/
def decodeProgress (j : Json) : Option FitnessProgress :=
  match j with
  | .obj fields =>
    match getField "id" fields, getField "user_id" fields, getField "date" fields,
          getField "timezone" fields, getField "steps" fields,
          getField "calories_burned" fields with
    | some ji, some ju, some jd, some jt, some js, some jc =>
      match ji.asNum, ju.asNum, jd.asStr, jt.asStr, js.asNum, jc.asNum with
      | some i, some u, some d, some t, some s, some c => some ⟨i, u, d, t, s, c⟩
      | _, _, _, _, _, _ => none
    | _, _, _, _, _, _ => none
  | _ => none

/-- The derived Serialize for User. -/
def encodeUser (u : User) : Json :=
  .obj [("id", .num u.id), ("username", .str u.username), ("password", .str u.password)]

/-- The derived Deserialize for User. -/
def decodeUser (j : Json) : Option User :=
  match j with
  | .obj fields =>
    match getField "id" fields, getField "username" fields, getField "password" fields with
    | some ji, some jn, some jp =>
      match ji.asNum, jn.asStr, jp.asStr with
      | some i, some n, some p => some ⟨i, n, p⟩
      | _, _, _ => none
    | _, _, _ => none
  | _ => none

/-- The derived Serialize for Database of main.rs. -/
def encodeDatabase (db : Database) : Json :=
  .obj [("fitness_progress", encodeMap encodeProgress db.fitness_progress),
        ("users", encodeMap encodeUser db.users)]

/-- The derived Deserialize for Database of main.rs. -/
def decodeDatabase (j : Json) : Option Database :=
  match j with
  | .obj fields =>
    match getField "fitness_progress" fields, getField "users" fields with
    | some jf, some ju =>
      match decodeMap decodeProgress jf, decodeMap decodeUser ju with
      | some f, some u => some ⟨f, u⟩
      | _, _ => none
    | _, _ => none
  | _ => none

/-- Database::save_to_file of main.rs — the JSON document written over
database.json. -/
def save_to_file (db : Database) : Json := encodeDatabase db

/-- Database::load_from_file of main.rs: both the read and the decode
propagate their errors with the question-mark operator, so an absent file
and empty, whitespace-only or malformed content all return an error. -/
def load_from_file (f : FileContent) : Except Unit Database :=
  match f with
  | .jsonText j =>
    match decodeDatabase j with
    | some db => .ok db
    | none => .error ()
  | .malformed => .error ()
  | .whitespaceOnly => .error ()
  | .absent => .error ()

/-- The startup sequence of main.rs main: load_from_file, falling back to
Database::new on any error. -/
def startupDatabase (f : FileContent) : Database :=
  match load_from_file f with
  | .ok db => db
  | .error _ => Database.new

/-- The observable outcome of one handler invocation of main.rs. -/
structure HandlerOut where
  db : Database
  saveInvoked : Bool
  response : HttpResponse
deriving Repr

/-- Handler create_progress: insert_progress, save with the result
discarded, 200 with no body. -/
def create_progress (state : Database) (progress : FitnessProgress) (saveOk : Bool) : HandlerOut :=
  ⟨state.insert_progress progress, true, .ok⟩

/-- Handler read_progress_by_id: get_progress, 200 with the record as
JSON, or 404. -/
def read_progress_by_id (state : Database) (id : Nat) : HandlerOut :=
  ⟨state, false,
    match state.get_progress id with
    | some progress => .okJson (encodeProgress progress)
    | none => .notFound⟩

/-- Handler update_progress: update under progress.id, save with the
result discarded, 200 with no body. -/
def update_progress (state : Database) (progress : FitnessProgress) (saveOk : Bool) : HandlerOut :=
  ⟨state.update_progress progress.id progress, true, .ok⟩

/-- Handler delete_progress: delete_progress, save with the result
discarded, 200 with no body. -/
def delete_progress (state : Database) (id : Nat) (saveOk : Bool) : HandlerOut :=
  ⟨state.delete_progress id, true, .ok⟩

/-- Database states reachable from the fresh database through the mutating
request handlers of main.rs. -/
inductive Reachable : Database → Prop where
  | new : Reachable Database.new
  | create {db} (h : Reachable db) (p : FitnessProgress) (so : Bool) :
      Reachable (create_progress db p so).db
  | update {db} (h : Reachable db) (p : FitnessProgress) (so : Bool) :
      Reachable (update_progress db p so).db
  | delete {db} (h : Reachable db) (id : Nat) (so : Bool) :
      Reachable (delete_progress db id so).db

/-- The key of every stored entry equals the id field of the stored
record, in both entity maps of main.rs. -/
def KeyMatchesId (db : Database) : Prop :=
  (∀ p ∈ db.fitness_progress, p.2.id = p.1) ∧ (∀ p ∈ db.users, p.2.id = p.1)

end WebTemplate.MainRs

namespace WebTemplate

/-! Helper lemmas about the association-list map operations. -/

theorem KV.get_insert_self (m : List (Nat × α)) (k : Nat) (v : α) :
    KV.get (KV.insert m k v) k = some v := by
  simp [KV.get, KV.insert, List.find?_cons]

theorem KV.find?_filter_ne (m : List (Nat × α)) (k k2 : Nat) (h : k2 ≠ k) :
    (m.filter (fun p => p.1 != k)).find? (fun p => p.1 == k2)
      = m.find? (fun p => p.1 == k2) := by
  induction m with
  | nil => rfl
  | cons p rest ih =>
    rcases eq_or_ne p.1 k with hp | hp
    · have hpred : (p.1 != k) = false := by simp [hp]
      have hfind : (p.1 == k2) = false := by simp [hp]; exact fun hh => h hh.symm
      simp [List.filter_cons, hpred, List.find?_cons, hfind, ih]
    · have hpred : (p.1 != k) = true := by simp [hp]
      by_cases h2 : p.1 = k2
      · simp [List.filter_cons, hpred, List.find?_cons, h2, h]
      · simp [List.filter_cons, hpred, List.find?_cons, h2, ih]

theorem KV.get_insert_ne (m : List (Nat × α)) (k k2 : Nat) (v : α) (h : k2 ≠ k) :
    KV.get (KV.insert m k v) k2 = KV.get m k2 := by
  have hhead : ((k, v).1 == k2) = false := by
    simp; exact fun hh => h hh.symm
  simp only [KV.get, KV.insert, List.find?_cons, hhead]
  rw [KV.find?_filter_ne m k k2 h]

theorem KV.get_remove_self (m : List (Nat × α)) (k : Nat) :
    KV.get (KV.remove m k) k = none := by
  have hall : ∀ p ∈ m.filter (fun p : Nat × α => p.1 != k), ¬ (p.1 == k) = true := by
    intro p hp
    have h2 := List.of_mem_filter hp
    simp only [bne_iff_ne, ne_eq] at h2
    simp [h2]
  simp [KV.get, KV.remove, List.find?_eq_none.mpr hall]

theorem KV.remove_remove (m : List (Nat × α)) (k : Nat) :
    KV.remove (KV.remove m k) k = KV.remove m k := by
  simp [KV.remove, List.filter_filter]

theorem KV.mem_insert {m : List (Nat × α)} {k : Nat} {v : α} {p : Nat × α}
    (hp : p ∈ KV.insert m k v) : p = (k, v) ∨ p ∈ m := by
  simp only [KV.insert, List.mem_cons, List.mem_filter] at hp
  rcases hp with h | h
  · exact Or.inl h
  · exact Or.inr h.1

theorem KV.mem_remove {m : List (Nat × α)} {k : Nat} {p : Nat × α}
    (hp : p ∈ KV.remove m k) : p ∈ m :=
  (List.mem_filter.mp hp).1

/-! Helper lemmas for the decimal rendering of numeric map keys. -/

theorem charVal_digitChar {d : Nat} (h : d < 10) : charVal (digitChar d) = d := by
  interval_cases d <;> decide

theorem isDigitChar_digitChar {d : Nat} (h : d < 10) : isDigitChar (digitChar d) = true := by
  interval_cases d <;> decide

theorem parseKey_natKey (n : Nat) : parseKey (natKey n) = some n := by
  rcases eq_or_ne n 0 with h | h
  · subst h; decide
  · have hd : Nat.digits 10 n ≠ [] := Nat.digits_ne_nil_iff_ne_zero.mpr h
    have hlt : ∀ d ∈ Nat.digits 10 n, d < 10 := fun d hmem =>
      Nat.digits_lt_base (by norm_num) hmem
    unfold natKey
    rw [if_neg h]
    show parseKey (String.mk ((Nat.digits 10 n).reverse.map digitChar)) = some n
    have hne : (Nat.digits 10 n).reverse.map digitChar ≠ [] := by
      simp [hd]
    have hdig : ((Nat.digits 10 n).reverse.map digitChar).all isDigitChar = true := by
      rw [List.all_eq_true]
      intro c hc
      rcases List.mem_map.mp hc with ⟨d, hdm, rfl⟩
      exact isDigitChar_digitChar (hlt d (List.mem_reverse.mp hdm))
    show (if ((Nat.digits 10 n).reverse.map digitChar) = [] then none
      else if ((Nat.digits 10 n).reverse.map digitChar).all isDigitChar then
        some (Nat.ofDigits 10 ((((Nat.digits 10 n).reverse.map digitChar).map charVal).reverse))
      else none) = some n
    rw [if_neg hne, if_pos hdig]
    have hmap : (((Nat.digits 10 n).reverse.map digitChar).map charVal)
        = (Nat.digits 10 n).reverse := by
      rw [List.map_map]
      have : ∀ d ∈ (Nat.digits 10 n).reverse, (charVal ∘ digitChar) d = id d := by
        intro d hdm
        exact charVal_digitChar (hlt d (List.mem_reverse.mp hdm))
      rw [List.map_congr_left this, List.map_id]
    rw [hmap, List.reverse_reverse, Nat.ofDigits_digits]

/-! Round-trip of the serde layer: decoding an encoded value returns it. -/

theorem decodeEntries_map_encode {α : Type} (dec : Json → Option α) (enc : α → Json)
    (h : ∀ a, dec (enc a) = some a) (m : List (Nat × α)) :
    decodeEntries dec (m.map (fun p => (natKey p.1, enc p.2))) = some m := by
  induction m with
  | nil => rfl
  | cons p rest ih =>
    simp [decodeEntries, parseKey_natKey, h, ih]

theorem decodeMap_encodeMap {α : Type} (dec : Json → Option α) (enc : α → Json)
    (h : ∀ a, dec (enc a) = some a) (m : List (Nat × α)) :
    decodeMap dec (encodeMap enc m) = some m := by
  simp [decodeMap, encodeMap, decodeEntries_map_encode dec enc h m]

end WebTemplate

namespace WebTemplate.CodeTemplate

theorem decodeTask_encodeTask (t : Task) : decodeTask (encodeTask t) = some t := rfl

theorem decodeUser_encodeUser (u : User) : decodeUser (encodeUser u) = some u := rfl

theorem decodeDatabase_encodeDatabase (db : Database) :
    decodeDatabase (encodeDatabase db) = some db := by
  have ht : decodeMap decodeTask (encodeMap encodeTask db.tasks) = some db.tasks :=
    decodeMap_encodeMap decodeTask encodeTask decodeTask_encodeTask db.tasks
  have hu : decodeMap decodeUser (encodeMap encodeUser db.users) = some db.users :=
    decodeMap_encodeMap decodeUser encodeUser decodeUser_encodeUser db.users
  simp [decodeDatabase, encodeDatabase, getField, ht, hu]

end WebTemplate.CodeTemplate

namespace WebTemplate.MainRs

theorem decodeProgress_encodeProgress (p : FitnessProgress) :
    decodeProgress (encodeProgress p) = some p := rfl

theorem decodeUserMain_encodeUserMain (u : User) : decodeUser (encodeUser u) = some u := rfl

theorem decodeDatabaseMain_encodeDatabaseMain (db : Database) :
    decodeDatabase (encodeDatabase db) = some db := by
  have hf : decodeMap decodeProgress (encodeMap encodeProgress db.fitness_progress)
      = some db.fitness_progress :=
    decodeMap_encodeMap decodeProgress encodeProgress decodeProgress_encodeProgress
      db.fitness_progress
  have hu : decodeMap decodeUser (encodeMap encodeUser db.users) = some db.users :=
    decodeMap_encodeMap decodeUser encodeUser decodeUserMain_encodeUserMain db.users
  simp [decodeDatabase, encodeDatabase, getField, hf, hu]

end WebTemplate.MainRs

namespace WebTemplate.CodeTemplate

/-! Helper lemmas for the sequential execution of create_task requests. -/

theorem runCreates_cons (db : Database) (t : Task) (rest : List Task) :
    runCreates db (t :: rest) = runCreates (db.insert t) rest := rfl

theorem get_runCreates_of_not_mem (db : Database) (ts : List Task) (k : Nat)
    (h : k ∉ ts.map Task.id) : (runCreates db ts).get k = db.get k := by
  induction ts generalizing db with
  | nil => rfl
  | cons t rest ih =>
    rw [List.map_cons] at h
    rw [runCreates_cons]
    rw [ih (db.insert t) (fun hmem => h (List.mem_cons_of_mem _ hmem))]
    have hne : k ≠ t.id := fun hk => h (hk ▸ List.mem_cons_self _ _)
    show KV.get (KV.insert db.tasks t.id t) k = KV.get db.tasks k
    exact KV.get_insert_ne db.tasks t.id k t hne

theorem runCreates_get_mem (db : Database) (ts : List Task)
    (hnodup : (ts.map Task.id).Nodup) (t : Task) (ht : t ∈ ts) :
    (runCreates db ts).get t.id = some t := by
  induction ts generalizing db with
  | nil => cases ht
  | cons t2 rest ih =>
    rw [List.map_cons, List.nodup_cons] at hnodup
    rcases List.mem_cons.mp ht with rfl | hmem
    · rw [runCreates_cons, get_runCreates_of_not_mem (db.insert t) rest t.id hnodup.1]
      show KV.get (KV.insert db.tasks t.id t) t.id = some t
      exact KV.get_insert_self db.tasks t.id t
    · rw [runCreates_cons]
      exact ih (db.insert t2) hnodup.2 hmem

/-- Every reachable database state of code_template.rs stores each record
under its own id. -/
theorem reachable_keyMatchesId {db : Database} (h : Reachable db) : KeyMatchesId db := by
  induction h with
  | new =>
    exact ⟨fun p hp => absurd hp (List.not_mem_nil p), fun p hp => absurd hp (List.not_mem_nil p)⟩
  | create h t so ih =>
    refine ⟨fun p hp => ?_, ih.2⟩
    rcases KV.mem_insert hp with rfl | hmem
    · rfl
    · exact ih.1 p hmem
  | update h t so ih =>
    refine ⟨fun p hp => ?_, ih.2⟩
    rcases KV.mem_insert hp with rfl | hmem
    · rfl
    · exact ih.1 p hmem
  | delete h id so ih =>
    exact ⟨fun p hp => ih.1 p (KV.mem_remove hp), ih.2⟩
  | register h u so ih =>
    refine ⟨ih.1, fun p hp => ?_⟩
    rcases KV.mem_insert hp with rfl | hmem
    · rfl
    · exact ih.2 p hmem

end WebTemplate.CodeTemplate

namespace WebTemplate.MainRs

/-- Every reachable database state of main.rs stores each record under its
own id. -/
theorem reachable_keyMatchesIdMain {db : Database} (h : Reachable db) : KeyMatchesId db := by
  induction h with
  | new =>
    exact ⟨fun p hp => absurd hp (List.not_mem_nil p), fun p hp => absurd hp (List.not_mem_nil p)⟩
  | create h p0 so ih =>
    refine ⟨fun p hp => ?_, ih.2⟩
    rcases KV.mem_insert hp with rfl | hmem
    · rfl
    · exact ih.1 p hmem
  | update h p0 so ih =>
    refine ⟨fun p hp => ?_, ih.2⟩
    rcases KV.mem_insert hp with rfl | hmem
    · rfl
    · exact ih.1 p hmem
  | delete h id so ih =>
    exact ⟨fun p hp => ih.1 p (KV.mem_remove hp), ih.2⟩

end WebTemplate.MainRs

namespace WebTemplate

/-- C1: for every valid record r, after insert of r on any store, a get of
the id of r returns a record equal to r (same fields); this holds for the
task store, for the user store, and for the fitness-progress store. -/
theorem insert_get_agrees :
    (∀ (db : CodeTemplate.Database) (t : CodeTemplate.Task),
      (db.insert t).get t.id = some t) ∧
    (∀ (db : CodeTemplate.Database) (u : CodeTemplate.User),
      (db.insert_user u).get_user_by_id u.id = some u) ∧
    (∀ (db : MainRs.Database) (p : MainRs.FitnessProgress),
      (db.insert_progress p).get_progress p.id = some p) :=
  ⟨fun db t => KV.get_insert_self db.tasks t.id t,
   fun db u => KV.get_insert_self db.users u.id u,
   fun db p => KV.get_insert_self db.fitness_progress p.id p⟩

/-- C2: update of key k with record r2 after insert of record r1 makes a
get of k return exactly r2, a full replacement and never a field merge;
and update of key k with a record whose id is k is the very same store
operation as insert of that record. Both the task store and the
fitness-progress store are covered. -/
theorem update_full_replacement :
    (∀ (db : CodeTemplate.Database) (k : Nat) (r1 r2 : CodeTemplate.Task),
      ((db.insert r1).update k r2).get k = some r2) ∧
    (∀ (db : CodeTemplate.Database) (k : Nat) (r : CodeTemplate.Task),
      r.id = k → db.update k r = db.insert r) ∧
    (∀ (db : MainRs.Database) (k : Nat) (r1 r2 : MainRs.FitnessProgress),
      ((db.insert_progress r1).update_progress k r2).get_progress k = some r2) ∧
    (∀ (db : MainRs.Database) (k : Nat) (r : MainRs.FitnessProgress),
      r.id = k → db.update_progress k r = db.insert_progress r) := by
  refine ⟨fun db k r1 r2 => KV.get_insert_self _ k r2, fun db k r h => ?_,
    fun db k r1 r2 => KV.get_insert_self _ k r2, fun db k r h => ?_⟩
  · subst h; rfl
  · subst h; rfl

/-- Witness for C2 at a concrete store and concrete records. -/
theorem update_full_replacement_witness :
    (⟨1, "b", true⟩ : CodeTemplate.Task).id = 1 ∧
    ((CodeTemplate.Database.new.insert ⟨1, "a", false⟩).update 1 ⟨1, "b", true⟩).get 1
      = some ⟨1, "b", true⟩ ∧
    CodeTemplate.Database.new.update 1 ⟨1, "b", true⟩
      = CodeTemplate.Database.new.insert ⟨1, "b", true⟩ :=
  ⟨rfl,
   update_full_replacement.1 CodeTemplate.Database.new 1 ⟨1, "a", false⟩ ⟨1, "b", true⟩,
   update_full_replacement.2.1 CodeTemplate.Database.new 1 ⟨1, "b", true⟩ rfl⟩

/-- C3: for every store reachable through the public operations, the JSON
document save_to_file writes, read back through load_from_file, yields the
original store, in both service variants. -/
theorem save_load_roundtrip :
    (∀ db : CodeTemplate.Database, CodeTemplate.Reachable db →
      CodeTemplate.load_from_file (.jsonText (CodeTemplate.save_to_file db)) = .ok db) ∧
    (∀ db : MainRs.Database, MainRs.Reachable db →
      MainRs.load_from_file (.jsonText (MainRs.save_to_file db)) = .ok db) := by
  constructor
  · intro db _
    simp [CodeTemplate.load_from_file, CodeTemplate.save_to_file,
      CodeTemplate.decodeDatabase_encodeDatabase]
  · intro db _
    simp [MainRs.load_from_file, MainRs.save_to_file, MainRs.decodeDatabaseMain_encodeDatabaseMain]

/-- Witness for C3 at the reachable fresh store of each variant. -/
theorem save_load_roundtrip_witness :
    (CodeTemplate.Reachable CodeTemplate.Database.new ∧
      CodeTemplate.load_from_file (.jsonText (CodeTemplate.save_to_file CodeTemplate.Database.new))
        = .ok CodeTemplate.Database.new) ∧
    (MainRs.Reachable MainRs.Database.new ∧
      MainRs.load_from_file (.jsonText (MainRs.save_to_file MainRs.Database.new))
        = .ok MainRs.Database.new) :=
  ⟨⟨CodeTemplate.Reachable.new,
    save_load_roundtrip.1 CodeTemplate.Database.new CodeTemplate.Reachable.new⟩,
   ⟨MainRs.Reachable.new,
    save_load_roundtrip.2 MainRs.Database.new MainRs.Reachable.new⟩⟩

/-- C4: at startup, the load of an absent or whitespace-only snapshot file
yields a fresh empty store without failing the process, and the load of a
snapshot holding exactly one record yields the store holding exactly that
record, in both variants. -/
theorem startup_recovery :
    CodeTemplate.startupDatabase .absent = CodeTemplate.Database.new ∧
    CodeTemplate.startupDatabase .whitespaceOnly = CodeTemplate.Database.new ∧
    (∀ t : CodeTemplate.Task,
      CodeTemplate.startupDatabase
        (.jsonText (CodeTemplate.encodeDatabase (CodeTemplate.Database.new.insert t)))
        = CodeTemplate.Database.new.insert t) ∧
    MainRs.startupDatabase .absent = MainRs.Database.new ∧
    MainRs.startupDatabase .whitespaceOnly = MainRs.Database.new ∧
    (∀ p : MainRs.FitnessProgress,
      MainRs.startupDatabase
        (.jsonText (MainRs.encodeDatabase (MainRs.Database.new.insert_progress p)))
        = MainRs.Database.new.insert_progress p) := by
  refine ⟨rfl, rfl, fun t => ?_, rfl, rfl, fun p => ?_⟩
  · simp [CodeTemplate.startupDatabase, CodeTemplate.load_from_file,
      CodeTemplate.decodeDatabase_encodeDatabase]
  · simp [MainRs.startupDatabase, MainRs.load_from_file,
      MainRs.decodeDatabaseMain_encodeDatabaseMain]

/-- C5: every mutating handler invokes save_to_file after its store
operation, including a delete of a nonexistent key, and the handler
returns the success response whatever the outcome of the save: its whole
result is independent of the save outcome. -/
theorem mutating_handlers_write_through :
    ∀ saveOk : Bool,
    (∀ (db : CodeTemplate.Database) (t : CodeTemplate.Task),
      (CodeTemplate.create_task db t saveOk).saveInvoked = true ∧
      (CodeTemplate.create_task db t saveOk).response = .ok ∧
      CodeTemplate.create_task db t saveOk = CodeTemplate.create_task db t true) ∧
    (∀ (db : CodeTemplate.Database) (t : CodeTemplate.Task),
      (CodeTemplate.update_task db t saveOk).saveInvoked = true ∧
      (CodeTemplate.update_task db t saveOk).response = .ok ∧
      CodeTemplate.update_task db t saveOk = CodeTemplate.update_task db t true) ∧
    (∀ (db : CodeTemplate.Database) (id : Nat),
      (CodeTemplate.delete_task db id saveOk).saveInvoked = true ∧
      (CodeTemplate.delete_task db id saveOk).response = .ok ∧
      CodeTemplate.delete_task db id saveOk = CodeTemplate.delete_task db id true) ∧
    (∀ (db : CodeTemplate.Database) (u : CodeTemplate.User),
      (CodeTemplate.register_user db u saveOk).saveInvoked = true ∧
      (CodeTemplate.register_user db u saveOk).response = .ok ∧
      CodeTemplate.register_user db u saveOk = CodeTemplate.register_user db u true) ∧
    (∀ (db : MainRs.Database) (p : MainRs.FitnessProgress),
      (MainRs.create_progress db p saveOk).saveInvoked = true ∧
      (MainRs.create_progress db p saveOk).response = .ok ∧
      MainRs.create_progress db p saveOk = MainRs.create_progress db p true) ∧
    (∀ (db : MainRs.Database) (p : MainRs.FitnessProgress),
      (MainRs.update_progress db p saveOk).saveInvoked = true ∧
      (MainRs.update_progress db p saveOk).response = .ok ∧
      MainRs.update_progress db p saveOk = MainRs.update_progress db p true) ∧
    (∀ (db : MainRs.Database) (id : Nat),
      (MainRs.delete_progress db id saveOk).saveInvoked = true ∧
      (MainRs.delete_progress db id saveOk).response = .ok ∧
      MainRs.delete_progress db id saveOk = MainRs.delete_progress db id true) ∧
    (∀ (db : CodeTemplate.Database) (id : Nat), db.get id = none →
      (CodeTemplate.delete_task db id saveOk).saveInvoked = true ∧
      (CodeTemplate.delete_task db id saveOk).response = .ok) :=
  fun saveOk =>
    ⟨fun db t => ⟨rfl, rfl, rfl⟩, fun db t => ⟨rfl, rfl, rfl⟩, fun db id => ⟨rfl, rfl, rfl⟩,
     fun db u => ⟨rfl, rfl, rfl⟩, fun db p => ⟨rfl, rfl, rfl⟩, fun db p => ⟨rfl, rfl, rfl⟩,
     fun db id => ⟨rfl, rfl, rfl⟩, fun db id h => ⟨rfl, rfl⟩⟩

/-- Witness for C5 at a delete of a key absent from the fresh store, with
a failing save. -/
theorem mutating_handlers_write_through_witness :
    CodeTemplate.Database.new.get 7 = none ∧
    (CodeTemplate.delete_task CodeTemplate.Database.new 7 false).saveInvoked = true ∧
    (CodeTemplate.delete_task CodeTemplate.Database.new 7 false).response = .ok := by
  have h := (mutating_handlers_write_through false).2.2.2.2.2.2.2
    CodeTemplate.Database.new 7 rfl
  exact ⟨rfl, h.1, h.2⟩

/-- C6 counterexample: the claim quantifies over every store containing a
user with username a and password p, and fails on two such stores. First,
a store that also holds a user named missing with password p: the login of
(missing, p) succeeds there, while the claim says it fails. Second, a
store holding two users named a, where the scan of get_user_by_name meets
the one with password q first: the login of (a, p) fails there, while the
claim says it succeeds. -/
theorem login_counterexample :
    ((⟨2, "a", "p"⟩ : CodeTemplate.User) ∈ KV.values
        ((CodeTemplate.Database.new.insert_user ⟨1, "missing", "p"⟩).insert_user
          ⟨2, "a", "p"⟩).users ∧
      (CodeTemplate.login_user
        ((CodeTemplate.Database.new.insert_user ⟨1, "missing", "p"⟩).insert_user ⟨2, "a", "p"⟩)
        ⟨0, "missing", "p"⟩).response = .okBody "Login successful") ∧
    ((⟨1, "a", "p"⟩ : CodeTemplate.User) ∈ KV.values
        ((CodeTemplate.Database.new.insert_user ⟨1, "a", "p"⟩).insert_user
          ⟨2, "a", "q"⟩).users ∧
      (CodeTemplate.login_user
        ((CodeTemplate.Database.new.insert_user ⟨1, "a", "p"⟩).insert_user ⟨2, "a", "q"⟩)
        ⟨0, "a", "p"⟩).response = .unauthorizedBody "Login failed") := by
  refine ⟨⟨?_, rfl⟩, ⟨?_, rfl⟩⟩ <;> decide

/-- C6 amended: for every store in which some user has username a, every
user with username a has password p, and no user has username missing,
the login of (a, p) succeeds, while the logins of (a, wrong) and of
(missing, p) both fail and produce the identical response. -/
theorem login_semantics (db : CodeTemplate.Database)
    (hsome : ∃ u ∈ KV.values db.users, u.username = "a")
    (hall : ∀ u ∈ KV.values db.users, u.username = "a" → u.password = "p")
    (hmissing : ∀ u ∈ KV.values db.users, u.username ≠ "missing") :
    (CodeTemplate.login_user db ⟨0, "a", "p"⟩).response = .okBody "Login successful" ∧
    (CodeTemplate.login_user db ⟨0, "a", "wrong"⟩).response = .unauthorizedBody "Login failed" ∧
    (CodeTemplate.login_user db ⟨0, "missing", "p"⟩).response
      = .unauthorizedBody "Login failed" ∧
    (CodeTemplate.login_user db ⟨0, "a", "wrong"⟩).response
      = (CodeTemplate.login_user db ⟨0, "missing", "p"⟩).response := by
  have hfindsome : ((KV.values db.users).find? (fun u => u.username == "a")).isSome := by
    rw [List.find?_isSome]
    rcases hsome with ⟨u, hu, hname⟩
    exact ⟨u, hu, by simp [hname]⟩
  obtain ⟨u0, hfind⟩ := Option.isSome_iff_exists.mp hfindsome
  have hu0mem : u0 ∈ KV.values db.users := List.mem_of_find?_eq_some hfind
  have hu0name : u0.username = "a" := by
    have := List.find?_some hfind
    simpa using this
  have hu0pass : u0.password = "p" := hall u0 hu0mem hu0name
  have hnone : (KV.values db.users).find? (fun u => u.username == "missing") = none := by
    rw [List.find?_eq_none]
    intro u hu
    simp [hmissing u hu]
  have h1 : (CodeTemplate.login_user db ⟨0, "a", "p"⟩).response = .okBody "Login successful" := by
    simp [CodeTemplate.login_user, CodeTemplate.Database.get_user_by_name, hfind, hu0pass]
  have h2 : (CodeTemplate.login_user db ⟨0, "a", "wrong"⟩).response
      = .unauthorizedBody "Login failed" := by
    simp [CodeTemplate.login_user, CodeTemplate.Database.get_user_by_name, hfind, hu0pass]
  have h3 : (CodeTemplate.login_user db ⟨0, "missing", "p"⟩).response
      = .unauthorizedBody "Login failed" := by
    simp [CodeTemplate.login_user, CodeTemplate.Database.get_user_by_name, hnone]
  exact ⟨h1, h2, h3, h2.trans h3.symm⟩

/-- Witness for the amended C6 at a store holding the single user
(a, p). -/
theorem login_semantics_witness :
    (∃ u ∈ KV.values (CodeTemplate.Database.new.insert_user ⟨1, "a", "p"⟩).users,
      u.username = "a") ∧
    (CodeTemplate.login_user (CodeTemplate.Database.new.insert_user ⟨1, "a", "p"⟩)
      ⟨0, "a", "p"⟩).response = .okBody "Login successful" :=
  ⟨by decide,
   (login_semantics (CodeTemplate.Database.new.insert_user ⟨1, "a", "p"⟩)
     (by decide) (by decide) (by decide)).1⟩

/-- C7: after a delete of key k, a get of k returns absent whether or not
k was present, and a second delete of k leaves the store state of the
first delete unchanged, in both variants. -/
theorem delete_get_idempotent :
    (∀ (db : CodeTemplate.Database) (k : Nat), (db.delete k).get k = none) ∧
    (∀ (db : CodeTemplate.Database) (k : Nat), (db.delete k).delete k = db.delete k) ∧
    (∀ (db : MainRs.Database) (k : Nat), (db.delete_progress k).get_progress k = none) ∧
    (∀ (db : MainRs.Database) (k : Nat),
      (db.delete_progress k).delete_progress k = db.delete_progress k) := by
  refine ⟨fun db k => KV.get_remove_self _ _, fun db k => ?_,
    fun db k => KV.get_remove_self _ _, fun db k => ?_⟩
  · simp [CodeTemplate.Database.delete, KV.remove_remove]
  · simp [MainRs.Database.delete_progress, KV.remove_remove]

/-- C8: N mutating create requests with pairwise distinct keys, executed
in the order the single shared lock serializes them to (any list order),
all succeed and leave every one of the N records in the final store. -/
theorem concurrent_creates_no_lost_updates (db : CodeTemplate.Database)
    (ts : List CodeTemplate.Task) (hnodup : (ts.map CodeTemplate.Task.id).Nodup) :
    (∀ t ∈ ts, (CodeTemplate.runCreates db ts).get t.id = some t) ∧
    (∀ (d : CodeTemplate.Database) (t : CodeTemplate.Task) (so : Bool),
      (CodeTemplate.create_task d t so).response = .ok) :=
  ⟨fun t ht => CodeTemplate.runCreates_get_mem db ts hnodup t ht, fun d t so => rfl⟩

/-- Witness for C8 at two concrete requests with distinct keys. -/
theorem concurrent_creates_no_lost_updates_witness :
    (([⟨1, "a", false⟩, ⟨2, "b", true⟩] : List CodeTemplate.Task).map
      CodeTemplate.Task.id).Nodup ∧
    (∀ t ∈ ([⟨1, "a", false⟩, ⟨2, "b", true⟩] : List CodeTemplate.Task),
      (CodeTemplate.runCreates CodeTemplate.Database.new
        [⟨1, "a", false⟩, ⟨2, "b", true⟩]).get t.id = some t) :=
  ⟨by decide,
   (concurrent_creates_no_lost_updates CodeTemplate.Database.new
     [⟨1, "a", false⟩, ⟨2, "b", true⟩] (by decide)).1⟩

/-- C9: in every store state reachable through the request handlers, the
key of each stored entry equals the id field of the stored record, for
tasks, users and fitness progress alike. -/
theorem reachable_key_id_invariant :
    (∀ db : CodeTemplate.Database, CodeTemplate.Reachable db → CodeTemplate.KeyMatchesId db) ∧
    (∀ db : MainRs.Database, MainRs.Reachable db → MainRs.KeyMatchesId db) :=
  ⟨fun _ h => CodeTemplate.reachable_keyMatchesId h,
   fun _ h => MainRs.reachable_keyMatchesIdMain h⟩

/-- Witness for C9 at the store reached by one create_task request. -/
theorem reachable_key_id_invariant_witness :
    CodeTemplate.Reachable
      (CodeTemplate.create_task CodeTemplate.Database.new ⟨1, "a", true⟩ true).db ∧
    CodeTemplate.KeyMatchesId
      (CodeTemplate.create_task CodeTemplate.Database.new ⟨1, "a", true⟩ true).db :=
  ⟨CodeTemplate.Reachable.create CodeTemplate.Reachable.new ⟨1, "a", true⟩ true,
   reachable_key_id_invariant.1 _
     (CodeTemplate.Reachable.create CodeTemplate.Reachable.new ⟨1, "a", true⟩ true)⟩

/-- C10: every operation on one entity map leaves the other entity map
unchanged, for the task, user and fitness-progress operations of both
variants. -/
theorem entity_map_frame :
    (∀ (db : CodeTemplate.Database) (t : CodeTemplate.Task), (db.insert t).users = db.users) ∧
    (∀ (db : CodeTemplate.Database) (k : Nat) (t : CodeTemplate.Task),
      (db.update k t).users = db.users) ∧
    (∀ (db : CodeTemplate.Database) (k : Nat), (db.delete k).users = db.users) ∧
    (∀ (db : CodeTemplate.Database) (u : CodeTemplate.User),
      (db.insert_user u).tasks = db.tasks) ∧
    (∀ (db : CodeTemplate.Database) (k : Nat) (u : CodeTemplate.User),
      (db.update_user_by_id k u).tasks = db.tasks) ∧
    (∀ (db : CodeTemplate.Database) (k : Nat), (db.delete_user_by_id k).tasks = db.tasks) ∧
    (∀ (db : MainRs.Database) (p : MainRs.FitnessProgress),
      (db.insert_progress p).users = db.users) ∧
    (∀ (db : MainRs.Database) (k : Nat) (p : MainRs.FitnessProgress),
      (db.update_progress k p).users = db.users) ∧
    (∀ (db : MainRs.Database) (k : Nat), (db.delete_progress k).users = db.users) ∧
    (∀ (db : MainRs.Database) (u : MainRs.User),
      (db.insert_user u).fitness_progress = db.fitness_progress) ∧
    (∀ (db : MainRs.Database) (k : Nat) (u : MainRs.User),
      (db.update_user_by_id k u).fitness_progress = db.fitness_progress) ∧
    (∀ (db : MainRs.Database) (k : Nat),
      (db.delete_user_by_id k).fitness_progress = db.fitness_progress) :=
  ⟨fun _ _ => rfl, fun _ _ _ => rfl, fun _ _ => rfl, fun _ _ => rfl, fun _ _ _ => rfl,
   fun _ _ => rfl, fun _ _ => rfl, fun _ _ _ => rfl, fun _ _ => rfl, fun _ _ => rfl,
   fun _ _ _ => rfl, fun _ _ => rfl⟩

end WebTemplate
